import Mathlib

/-!
Shallow embedding of the `i2c` Go package (the bus-connection and SMBus-style
register-access layer) and proofs of its specified properties.

The underlying operating system and device are modelled by a `Transport`
oracle: it decides the outcome of every `ioctl`, file write and file read.
Every embedded operation returns its result together with the list of
syscall-level events it issued, so that wire-level and ordering properties
can be stated about the event trace.
-/

namespace I2C

/-- Errors an operation can return: `ebadf` models the kernel rejecting a
syscall on an invalid file descriptor, `fileClosed` models Go's
`os.ErrClosed` returned by `os.File` methods on a closed file, and `dev e`
carries an OS error code `e` produced by the device/kernel. -/
inductive I2CErr where
  | ebadf : I2CErr
  | fileClosed : I2CErr
  | dev : Nat → I2CErr
deriving DecidableEq, Repr

/-- Syscall-level events observable by the fake transport: a device-control
request (`ioctl`), a file write carrying its buffer, and a file read
carrying the requested length. -/
inductive Event where
  | ioctlReq : Int → Nat → Nat → Event
  | fwrite : Int → List Nat → Event
  | fread : Int → Nat → Event
deriving DecidableEq, Repr

/-- The file descriptor an event is issued against. -/
def Event.fd : Event → Int
  | Event.ioctlReq fd _ _ => fd
  | Event.fwrite fd _ => fd
  | Event.fread fd _ => fd

/-- The transport oracle: outcome of each ioctl (`none` = success, `some e` =
error code `e`), of each file write (`Sum.inl n` = `n` bytes written,
`Sum.inr e` = error), and of each file read (`Sum.inl bs` = bytes supplied,
`Sum.inr e` = error). -/
structure Transport where
  ioctlRes : Int → Nat → Nat → Option Nat
  writeRes : Int → List Nat → Sum Nat Nat
  readRes : Int → Nat → Sum (List Nat) Nat

/-- The `I2C` struct: `fd` is the descriptor of the open device node
(`rc *os.File`); `closed` is `os.File`'s internal closed flag. The mutex is
not part of the sequential state; it is modelled by the `Action`/`Sched`
scheduling semantics below. -/
structure Conn where
  fd : Int
  closed : Bool
deriving DecidableEq, Repr

/-- The sentinel descriptor `os.File.Fd()` yields once the file is closed
(Go returns `^uintptr(0)`, i.e. -1 as a signed value). -/
def invalidFd : Int := -1

/-- Model of `this.rc.Fd()`: the real descriptor while open, the invalid
sentinel after `Close`. -/
def Conn.Fd (c : Conn) : Int := if c.closed then invalidFd else c.fd

/-- `I2C_SLAVE = 0x0703` (source line 19). -/
def I2C_SLAVE : Nat := 0x0703

/-- Model of the `ioctl` wrapper (source lines 252-258): issue the syscall and
turn a nonzero errno into an error. The kernel rejects a negative (invalid)
descriptor with `EBADF` before any device is consulted. -/
def ioctl (t : Transport) (fd : Int) (cmd arg : Nat) : Except I2CErr Unit × List Event :=
  if fd < 0 then
    (Except.error I2CErr.ebadf, [Event.ioctlReq fd cmd arg])
  else
    match t.ioctlRes fd cmd arg with
    | none => (Except.ok (), [Event.ioctlReq fd cmd arg])
    | some e => (Except.error (I2CErr.dev e), [Event.ioctlReq fd cmd arg])

/-- `setAddress` (source lines 42-44): `ioctl(this.rc.Fd(), I2C_SLAVE, addr)`. -/
def setAddress (t : Transport) (c : Conn) (addr : Nat) : Except I2CErr Unit × List Event :=
  ioctl t c.Fd I2C_SLAVE addr

/-- Model of `os.File.Write`: a closed file fails with `ErrClosed` issuing no
syscall; otherwise the write syscall is issued and the transport decides its
outcome. -/
def fileWrite (t : Transport) (c : Conn) (buf : List Nat) : Except I2CErr Nat × List Event :=
  if c.closed then (Except.error I2CErr.fileClosed, [])
  else
    match t.writeRes c.fd buf with
    | Sum.inl n => (Except.ok n, [Event.fwrite c.fd buf])
    | Sum.inr e => (Except.error (I2CErr.dev e), [Event.fwrite c.fd buf])

/-- Model of `os.File.Read` into a zero-initialised buffer of length `n`
(`make([]byte, n)`): a closed file fails with `ErrClosed` issuing no syscall;
otherwise the read syscall is issued, up to `n` of the supplied bytes are
copied in (reduced mod 256, the byte type), and the count together with the
resulting buffer contents is returned. -/
def fileRead (t : Transport) (c : Conn) (n : Nat) :
    Except I2CErr (Nat × List Nat) × List Event :=
  if c.closed then (Except.error I2CErr.fileClosed, [])
  else
    match t.readRes c.fd n with
    | Sum.inl bs =>
        let filled := (bs.map (fun b => b % 256)).take n
        (Except.ok (filled.length, filled ++ List.replicate (n - filled.length) 0),
          [Event.fread c.fd n])
    | Sum.inr e => (Except.error (I2CErr.dev e), [Event.fread c.fd n])

/-- `writeNoSync` (source lines 55-61): set the target address, then write
`buf`; an address-set failure returns that error without attempting the
write. -/
def writeNoSync (t : Transport) (c : Conn) (addr : Nat) (buf : List Nat) :
    Except I2CErr Nat × List Event :=
  match setAddress t c addr with
  | (Except.error e, ev) => (Except.error e, ev)
  | (Except.ok _, ev) =>
      let r := fileWrite t c buf
      (r.1, ev ++ r.2)

/-- `readNoSync` (source lines 85-91): set the target address, then read
`len(p)` bytes; an address-set failure returns that error without attempting
the read. -/
def readNoSync (t : Transport) (c : Conn) (addr : Nat) (n : Nat) :
    Except I2CErr (Nat × List Nat) × List Event :=
  match setAddress t c addr with
  | (Except.error e, ev) => (Except.error e, ev)
  | (Except.ok _, ev) =>
      let r := fileRead t c n
      (r.1, ev ++ r.2)

/-- `Write` (source lines 48-53): lock, `writeNoSync`, unlock. The lock does
not affect the sequential result; it is accounted for in `opActions`. -/
def Write (t : Transport) (c : Conn) (addr : Nat) (buf : List Nat) :
    Except I2CErr Nat × List Event :=
  writeNoSync t c addr buf

/-- `writeByteNoSync` (source lines 70-75): wrap the byte in a one-element
buffer and delegate to `writeNoSync`. -/
def writeByteNoSync (t : Transport) (c : Conn) (addr : Nat) (b : Nat) :
    Except I2CErr Nat × List Event :=
  writeNoSync t c addr [b]

/-- `WriteByte` (source lines 63-68): lock, `writeByteNoSync`, unlock. -/
def WriteByte (t : Transport) (c : Conn) (addr : Nat) (b : Nat) :
    Except I2CErr Nat × List Event :=
  writeByteNoSync t c addr b

/-- `Read` (source lines 78-83): lock, `readNoSync`, unlock. -/
def Read (t : Transport) (c : Conn) (addr : Nat) (n : Nat) :
    Except I2CErr (Nat × List Nat) × List Event :=
  readNoSync t c addr n

/-- `Close` (source lines 94-99): close the underlying file. Closing an
already-closed file fails with `ErrClosed`; otherwise the descriptor is
released. -/
def Close (c : Conn) : Except I2CErr Unit × Conn :=
  if c.closed then (Except.error I2CErr.fileClosed, c)
  else (Except.ok (), { c with closed := true })

/-- `ReadRegU8` (source lines 103-118): under one lock acquisition, write
`[reg]` then read 1 byte; return `buf[0]`. -/
def ReadRegU8 (t : Transport) (c : Conn) (addr reg : Nat) :
    Except I2CErr Nat × List Event :=
  match writeNoSync t c addr [reg] with
  | (Except.error e, ev) => (Except.error e, ev)
  | (Except.ok _, ev) =>
      match readNoSync t c addr 1 with
      | (Except.error e, ev2) => (Except.error e, ev ++ ev2)
      | (Except.ok r, ev2) => (Except.ok (r.2.getD 0 0), ev ++ ev2)

/-- `WriteRegU8` (source lines 122-133): under one lock acquisition, write
`[reg, value]` as a single transfer. -/
def WriteRegU8 (t : Transport) (c : Conn) (addr reg value : Nat) :
    Except I2CErr Unit × List Event :=
  match writeNoSync t c addr [reg, value] with
  | (Except.error e, ev) => (Except.error e, ev)
  | (Except.ok _, ev) => (Except.ok (), ev)

/-- `ReadRegU16BE` (source lines 138-154): under one lock acquisition, write
`[reg]`, read 2 bytes, combine as `uint16(buf[0])<<8 + uint16(buf[1])`
(uint16 arithmetic, i.e. mod 2^16). -/
def ReadRegU16BE (t : Transport) (c : Conn) (addr reg : Nat) :
    Except I2CErr Nat × List Event :=
  match writeNoSync t c addr [reg] with
  | (Except.error e, ev) => (Except.error e, ev)
  | (Except.ok _, ev) =>
      match readNoSync t c addr 2 with
      | (Except.error e, ev2) => (Except.error e, ev ++ ev2)
      | (Except.ok r, ev2) =>
          (Except.ok ((((r.2.getD 0 0) <<< 8) % 65536 + r.2.getD 1 0) % 65536), ev ++ ev2)

/-- `ReadRegU16LE` (source lines 159-167): delegate to `ReadRegU16BE`, then
`w = (w&0xFF)<<8 + w>>8` in uint16 arithmetic. -/
def ReadRegU16LE (t : Transport) (c : Conn) (addr reg : Nat) :
    Except I2CErr Nat × List Event :=
  match ReadRegU16BE t c addr reg with
  | (Except.error e, ev) => (Except.error e, ev)
  | (Except.ok w, ev) =>
      (Except.ok ((((w &&& 255) <<< 8) % 65536 + w >>> 8) % 65536), ev)

/-- Go `uint16(v)` applied to an `int16` value: the two's-complement 16-bit
bit pattern. -/
def toU16 (v : Int) : Nat := (v % 65536).toNat

/-- Go `int16(u)` applied to a 16-bit pattern: reinterpret in
two's complement. -/
def toS16 (n : Nat) : Int :=
  if n % 65536 < 32768 then ((n % 65536 : Nat) : Int) else ((n % 65536 : Nat) : Int) - 65536

/-- Wrap-around of Go `int16` arithmetic (shifts and sums discard bits above
bit 15, two's complement). -/
def s16wrap (v : Int) : Int := toS16 (toU16 v)

/-- `ReadRegS16BE` (source lines 172-188): under one lock acquisition, write
`[reg]`, read 2 bytes, combine as `int16(buf[0])<<8 + int16(buf[1])`
(signed left shift and addition wrap mod 2^16 in two's complement). -/
def ReadRegS16BE (t : Transport) (c : Conn) (addr reg : Nat) :
    Except I2CErr Int × List Event :=
  match writeNoSync t c addr [reg] with
  | (Except.error e, ev) => (Except.error e, ev)
  | (Except.ok _, ev) =>
      match readNoSync t c addr 2 with
      | (Except.error e, ev2) => (Except.error e, ev ++ ev2)
      | (Except.ok r, ev2) =>
          (Except.ok (s16wrap (s16wrap ((r.2.getD 0 0 : Int) * 256) + (r.2.getD 1 0 : Int))),
            ev ++ ev2)

/-- `ReadRegS16LE` (source lines 193-202): delegate to `ReadRegS16BE`, then
`w = (w&0xFF)<<8 + w>>8` in int16 arithmetic: `&` acts on the bit pattern,
`<<8` wraps, and `>>8` is an ARITHMETIC right shift (floor division by 256,
sign-extending). -/
def ReadRegS16LE (t : Transport) (c : Conn) (addr reg : Nat) :
    Except I2CErr Int × List Event :=
  match ReadRegS16BE t c addr reg with
  | (Except.error e, ev) => (Except.error e, ev)
  | (Except.ok w, ev) =>
      (Except.ok (s16wrap (s16wrap ((toS16 (toU16 w &&& 255)) * 256) + Int.fdiv w 256)), ev)

/-- `WriteRegU16BE` (source lines 207-218): under one lock acquisition, write
`[reg, byte((value&0xFF00)>>8), byte(value&0xFF)]` as one transfer. -/
def WriteRegU16BE (t : Transport) (c : Conn) (addr reg : Nat) (value : Nat) :
    Except I2CErr Unit × List Event :=
  match writeNoSync t c addr [reg, (value &&& 65280) >>> 8, value &&& 255] with
  | (Except.error e, ev) => (Except.error e, ev)
  | (Except.ok _, ev) => (Except.ok (), ev)

/-- `WriteRegU16LE` (source lines 223-226): compute
`w := (value*0xFF00)>>8 + value<<8` in uint16 arithmetic — note the
MULTIPLICATION `value*0xFF00`, exactly as in the source — and delegate to
`WriteRegU16BE`. -/
def WriteRegU16LE (t : Transport) (c : Conn) (addr reg : Nat) (value : Nat) :
    Except I2CErr Unit × List Event :=
  WriteRegU16BE t c addr reg
    ((((value * 65280) % 65536) >>> 8 + (value <<< 8) % 65536) % 65536)

/-- `WriteRegS16BE` (source lines 231-242): under one lock acquisition, write
`[reg, byte((uint16(value)&0xFF00)>>8), byte(value&0xFF)]` as one transfer. -/
def WriteRegS16BE (t : Transport) (c : Conn) (addr reg : Nat) (value : Int) :
    Except I2CErr Unit × List Event :=
  match writeNoSync t c addr [reg, (toU16 value &&& 65280) >>> 8, toU16 value &&& 255] with
  | (Except.error e, ev) => (Except.error e, ev)
  | (Except.ok _, ev) => (Except.ok (), ev)

/-- `WriteRegS16LE` (source lines 247-250): compute
`w := int16((uint16(value)*0xFF00)>>8) + value<<8` in int16 arithmetic —
again with the MULTIPLICATION from the source — and delegate to
`WriteRegS16BE`. -/
def WriteRegS16LE (t : Transport) (c : Conn) (addr reg : Nat) (value : Int) :
    Except I2CErr Unit × List Event :=
  WriteRegS16BE t c addr reg
    (s16wrap (toS16 (((toU16 value * 65280) % 65536) >>> 8) + s16wrap (value * 256)))

/-- Enumeration of the public operations of the connection, with their
arguments. -/
inductive Op where
  | write (addr : Nat) (buf : List Nat)
  | writeByte (addr b : Nat)
  | read (addr n : Nat)
  | readRegU8 (addr reg : Nat)
  | writeRegU8 (addr reg value : Nat)
  | readRegU16BE (addr reg : Nat)
  | readRegU16LE (addr reg : Nat)
  | readRegS16BE (addr reg : Nat)
  | readRegS16LE (addr reg : Nat)
  | writeRegU16BE (addr reg value : Nat)
  | writeRegU16LE (addr reg value : Nat)
  | writeRegS16BE (addr reg : Nat) (value : Int)
  | writeRegS16LE (addr reg : Nat) (value : Int)
deriving DecidableEq, Repr

/-- The peripheral address an operation targets. -/
def Op.addr : Op → Nat
  | Op.write a _ => a
  | Op.writeByte a _ => a
  | Op.read a _ => a
  | Op.readRegU8 a _ => a
  | Op.writeRegU8 a _ _ => a
  | Op.readRegU16BE a _ => a
  | Op.readRegU16LE a _ => a
  | Op.readRegS16BE a _ => a
  | Op.readRegS16LE a _ => a
  | Op.writeRegU16BE a _ _ => a
  | Op.writeRegU16LE a _ _ => a
  | Op.writeRegS16BE a _ _ => a
  | Op.writeRegS16LE a _ _ => a

/-- Run an operation, discarding its value but keeping success/failure and
the event trace. -/
def runOp (t : Transport) (c : Conn) : Op → Except I2CErr Unit × List Event
  | Op.write a buf => ((Write t c a buf).1.map (fun _ => ()), (Write t c a buf).2)
  | Op.writeByte a b => ((WriteByte t c a b).1.map (fun _ => ()), (WriteByte t c a b).2)
  | Op.read a n => ((Read t c a n).1.map (fun _ => ()), (Read t c a n).2)
  | Op.readRegU8 a r => ((ReadRegU8 t c a r).1.map (fun _ => ()), (ReadRegU8 t c a r).2)
  | Op.writeRegU8 a r v => (WriteRegU8 t c a r v)
  | Op.readRegU16BE a r =>
      ((ReadRegU16BE t c a r).1.map (fun _ => ()), (ReadRegU16BE t c a r).2)
  | Op.readRegU16LE a r =>
      ((ReadRegU16LE t c a r).1.map (fun _ => ()), (ReadRegU16LE t c a r).2)
  | Op.readRegS16BE a r =>
      ((ReadRegS16BE t c a r).1.map (fun _ => ()), (ReadRegS16BE t c a r).2)
  | Op.readRegS16LE a r =>
      ((ReadRegS16LE t c a r).1.map (fun _ => ()), (ReadRegS16LE t c a r).2)
  | Op.writeRegU16BE a r v => (WriteRegU16BE t c a r v)
  | Op.writeRegU16LE a r v => (WriteRegU16LE t c a r v)
  | Op.writeRegS16BE a r v => (WriteRegS16BE t c a r v)
  | Op.writeRegS16LE a r v => (WriteRegS16LE t c a r v)

/-- A thread-visible action: acquiring the connection's mutex, releasing it,
or issuing a syscall-level event. -/
inductive Action where
  | lock : Action
  | unlock : Action
  | evt : Event → Action
deriving DecidableEq, Repr

/-- The action trace of one public operation: every public method of the
source brackets its body between `this.mtx.Lock()` and a deferred
`this.mtx.Unlock()` (e.g. source lines 103-105 and the deferred unlock), so
its actions are one lock, then its syscall events, then one unlock. -/
def mkTrace (es : List Event) : List Action :=
  Action.lock :: es.map Action.evt ++ [Action.unlock]

/-- The action trace of operation `o` run by one thread on connection `c`. -/
def opActions (t : Transport) (c : Conn) (o : Op) : List Action :=
  mkTrace (runOp t c o).2

/-- Interleaving semantics of two threads `A` (tagged `true`) and `B` (tagged
`false`) sharing one mutex: `Sched owner as bs tr` holds when, starting with
the mutex in state `owner`, thread `A` with remaining actions `as` and thread
`B` with remaining actions `bs` can produce the interleaved global trace
`tr`. A `lock` requires the mutex free and takes it; an `unlock` requires the
mutex held by that thread and frees it; events are unconstrained (mutual
exclusion comes only from the threads' own lock discipline). -/
inductive Sched : Option Bool → List Action → List Action → List (Bool × Action) → Prop
  | done {o} : Sched o [] [] []
  | lockA {as bs tr} : Sched (some true) as bs tr →
      Sched none (Action.lock :: as) bs ((true, Action.lock) :: tr)
  | lockB {as bs tr} : Sched (some false) as bs tr →
      Sched none as (Action.lock :: bs) ((false, Action.lock) :: tr)
  | unlockA {as bs tr} : Sched none as bs tr →
      Sched (some true) (Action.unlock :: as) bs ((true, Action.unlock) :: tr)
  | unlockB {as bs tr} : Sched none as bs tr →
      Sched (some false) as (Action.unlock :: bs) ((false, Action.unlock) :: tr)
  | evtA {o as bs tr e} : Sched o as bs tr →
      Sched o (Action.evt e :: as) bs ((true, Action.evt e) :: tr)
  | evtB {o as bs tr e} : Sched o as bs tr →
      Sched o as (Action.evt e :: bs) ((false, Action.evt e) :: tr)

/-- Tag every action of a thread-local trace with its thread id. -/
def tagged (tid : Bool) (as : List Action) : List (Bool × Action) :=
  as.map (fun a => (tid, a))

/-- The six register-level operations named by the specification's atomicity
property. -/
def isRegOp : Op → Prop
  | Op.readRegU8 _ _ => True
  | Op.writeRegU8 _ _ _ => True
  | Op.readRegU16BE _ _ => True
  | Op.readRegS16BE _ _ => True
  | Op.writeRegU16BE _ _ _ => True
  | Op.writeRegS16BE _ _ _ => True
  | _ => False

lemma sched_nil_left_aux {o as bs tr} (h : Sched o as bs tr) (ha : as = []) :
    tr = tagged false bs := by
  induction h with
  | done => simp [tagged]
  | lockA h ih => simp at ha
  | lockB h ih => simp [tagged, ih ha]
  | unlockA h ih => simp at ha
  | unlockB h ih => simp [tagged, ih ha]
  | evtA h ih => simp at ha
  | evtB h ih => simp [tagged, ih ha]

/-- With thread `A` finished, a schedule is just thread `B` running alone. -/
lemma sched_nil_left {o bs tr} (h : Sched o [] bs tr) : tr = tagged false bs :=
  sched_nil_left_aux h rfl

lemma sched_nil_right_aux {o as bs tr} (h : Sched o as bs tr) (hb : bs = []) :
    tr = tagged true as := by
  induction h with
  | done => simp [tagged]
  | lockA h ih => simp [tagged, ih hb]
  | lockB h ih => simp at hb
  | unlockA h ih => simp [tagged, ih hb]
  | unlockB h ih => simp at hb
  | evtA h ih => simp [tagged, ih hb]
  | evtB h ih => simp at hb

/-- With thread `B` finished, a schedule is just thread `A` running alone. -/
lemma sched_nil_right {o as tr} (h : Sched o as [] tr) : tr = tagged true as :=
  sched_nil_right_aux h rfl

/-- While thread `A` holds the mutex and thread `B` is blocked on `lock`, the
schedule is forced to run `A`'s remaining events and its unlock first. -/
lemma sched_lockedA {bs tr} :
    ∀ es : List Event, Sched (some true) (es.map Action.evt ++ [Action.unlock])
      (Action.lock :: bs) tr →
    ∃ tr2, tr = tagged true (es.map Action.evt ++ [Action.unlock]) ++ tr2 ∧
      Sched none [] (Action.lock :: bs) tr2 := by
  intro es
  induction es generalizing tr with
  | nil =>
      intro h
      simp only [List.map_nil, List.nil_append] at h
      cases h with
      | unlockA h' => exact ⟨_, by simp [tagged], h'⟩
  | cons e es ih =>
      intro h
      simp only [List.map_cons, List.cons_append] at h
      cases h with
      | evtA h' =>
          obtain ⟨tr2, htr, hs⟩ := ih h'
          exact ⟨tr2, by simp [tagged] at htr ⊢; simp [htr], hs⟩

/-- Mirror image of `sched_lockedA` for thread `B` holding the mutex. -/
lemma sched_lockedB {as tr} :
    ∀ es : List Event, Sched (some false) (Action.lock :: as)
      (es.map Action.evt ++ [Action.unlock]) tr →
    ∃ tr2, tr = tagged false (es.map Action.evt ++ [Action.unlock]) ++ tr2 ∧
      Sched none (Action.lock :: as) [] tr2 := by
  intro es
  induction es generalizing tr with
  | nil =>
      intro h
      simp only [List.map_nil, List.nil_append] at h
      cases h with
      | unlockB h' => exact ⟨_, by simp [tagged], h'⟩
  | cons e es ih =>
      intro h
      simp only [List.map_cons, List.cons_append] at h
      cases h with
      | evtB h' =>
          obtain ⟨tr2, htr, hs⟩ := ih h'
          exact ⟨tr2, by simp [tagged] at htr ⊢; simp [htr], hs⟩

/-- Any mutex-respecting interleaving of two lock-bracketed operations is one
operation's whole trace followed by the other's. -/
lemma sched_serializes {ea eb : List Event} {tr : List (Bool × Action)}
    (h : Sched none (mkTrace ea) (mkTrace eb) tr) :
    tr = tagged true (mkTrace ea) ++ tagged false (mkTrace eb) ∨
    tr = tagged false (mkTrace eb) ++ tagged true (mkTrace ea) := by
  unfold mkTrace at h
  cases h with
  | lockA h' =>
      obtain ⟨tr2, htr, hs⟩ := sched_lockedA ea h'
      left
      have h2 := sched_nil_left hs
      simp [mkTrace, tagged] at htr h2 ⊢
      simp [htr, h2]
  | lockB h' =>
      obtain ⟨tr2, htr, hs⟩ := sched_lockedB eb h'
      right
      have h2 := sched_nil_right hs
      simp [mkTrace, tagged] at htr h2 ⊢
      simp [htr, h2]

/-- Thread `B` alone can always run a lock-bracketed trace to completion from
a free mutex. -/
lemma schedB_full (es : List Event) :
    Sched none [] (mkTrace es) (tagged false (mkTrace es)) := by
  have body : ∀ es : List Event, Sched (some false) []
      (es.map Action.evt ++ [Action.unlock])
      (tagged false (es.map Action.evt ++ [Action.unlock])) := by
    intro es
    induction es with
    | nil => simpa [tagged] using Sched.unlockB Sched.done
    | cons e es ih => simpa [tagged] using Sched.evtB ih
  simpa [mkTrace, tagged] using Sched.lockB (body es)

/-- Thread `A` holding the mutex can run its events and unlock, then continue
with any schedule from the free mutex. -/
lemma schedA_owned_run (es : List Event) {bs tr} (h : Sched none [] bs tr) :
    Sched (some true) (es.map Action.evt ++ [Action.unlock]) bs
      (tagged true (es.map Action.evt ++ [Action.unlock]) ++ tr) := by
  induction es with
  | nil => simpa [tagged] using Sched.unlockA h
  | cons e es ih => simpa [tagged] using Sched.evtA ih

/-- The fully serialised schedule `A` then `B` is a valid interleaving. -/
lemma sched_serial_AB (ea eb : List Event) :
    Sched none (mkTrace ea) (mkTrace eb)
      (tagged true (mkTrace ea) ++ tagged false (mkTrace eb)) := by
  have h := Sched.lockA (schedA_owned_run ea (schedB_full eb))
  simpa [mkTrace, tagged] using h

/-- A fake transport on which every syscall succeeds: ioctls succeed, writes
report the full buffer length, and reads supply the fixed byte list
`resp`. -/
def okTransport (resp : List Nat) : Transport where
  ioctlRes := fun _ _ _ => none
  writeRes := fun _ buf => Sum.inl buf.length
  readRes := fun _ _ => Sum.inl resp

/-- A concrete open connection on descriptor 3. -/
def conn0 : Conn := { fd := 3, closed := false }

/-- All data bytes written by the transfers of an event trace, in order. -/
def writtenData (evs : List Event) : List Nat :=
  evs.foldr (fun ev acc => match ev with
    | Event.fwrite _ buf => buf ++ acc
    | _ => acc) []

/-- The last two elements of a byte list (what a fake device that stores the
last 2 written bytes retains). -/
def lastTwo (l : List Nat) : List Nat := l.drop (l.length - 2)

lemma and255_eq_mod (v : Nat) : v &&& 255 = v % 256 := by
  have h := Nat.and_pow_two_sub_one_eq_mod v 8
  norm_num at h
  exact h

lemma shiftRight8_eq_div (v : Nat) : v >>> 8 = v / 256 := by
  have h := Nat.shiftRight_eq_div_pow v 8
  norm_num at h
  exact h

lemma and_ff00_shiftRight (v : Nat) : (v &&& 65280) >>> 8 = (v >>> 8) &&& 255 := by
  apply Nat.eq_of_testBit_eq
  intro i
  simp only [Nat.testBit_shiftRight, Nat.testBit_and]
  have hmask : Nat.testBit 65280 (8 + i) = Nat.testBit 255 i := by
    rcases Nat.lt_or_ge i 8 with hi | hi
    · interval_cases i <;> decide
    · rw [Nat.testBit_lt_two_pow, Nat.testBit_lt_two_pow]
      · calc (255 : Nat) < 2 ^ 8 := by norm_num
          _ ≤ 2 ^ i := Nat.pow_le_pow_right (by norm_num) hi
      · calc (65280 : Nat) < 2 ^ 16 := by norm_num
          _ ≤ 2 ^ (8 + i) := Nat.pow_le_pow_right (by norm_num) (by omega)
  rw [hmask]

lemma combineBE_eq (b0 b1 : Nat) (h0 : b0 < 256) (h1 : b1 < 256) :
    ((b0 <<< 8) % 65536 + b1) % 65536 = b0 * 256 + b1 := by
  rw [Nat.shiftLeft_eq]
  norm_num
  omega

lemma swap16_eq (b0 b1 : Nat) (h0 : b0 < 256) (h1 : b1 < 256) :
    ((((b0 * 256 + b1) &&& 255) <<< 8) % 65536 + (b0 * 256 + b1) >>> 8) % 65536 =
      b1 * 256 + b0 := by
  rw [and255_eq_mod, shiftRight8_eq_div, Nat.shiftLeft_eq]
  have hb : (b0 * 256 + b1) % 256 = b1 := by omega
  have hd : (b0 * 256 + b1) / 256 = b0 := by omega
  rw [hb, hd]
  norm_num
  omega

lemma readRegU16BE_okT (addr reg b0 b1 : Nat) (h0 : b0 < 256) (h1 : b1 < 256) :
    ReadRegU16BE (okTransport [b0, b1]) conn0 addr reg =
      (Except.ok (((b0 <<< 8) % 65536 + b1) % 65536),
       [Event.ioctlReq 3 I2C_SLAVE addr, Event.fwrite 3 [reg],
        Event.ioctlReq 3 I2C_SLAVE addr, Event.fread 3 2]) := by
  simp [ReadRegU16BE, writeNoSync, readNoSync, setAddress, ioctl, fileWrite, fileRead,
    okTransport, conn0, Conn.Fd, invalidFd, Nat.mod_eq_of_lt h0, Nat.mod_eq_of_lt h1]

/-- C5: on a wire response `[b0, b1]` (first received byte `b0`),
`ReadRegU16BE` returns `b0<<8 | b1` and `ReadRegU16LE` returns
`b1<<8 | b0`. -/
theorem readRegU16_endianness (addr reg b0 b1 : Nat) (h0 : b0 < 256) (h1 : b1 < 256) :
    (ReadRegU16BE (okTransport [b0, b1]) conn0 addr reg).1 = Except.ok (b0 * 256 + b1) ∧
    (ReadRegU16LE (okTransport [b0, b1]) conn0 addr reg).1 = Except.ok (b1 * 256 + b0) := by
  have hbe := readRegU16BE_okT addr reg b0 b1 h0 h1
  constructor
  · rw [hbe]
    simp [combineBE_eq b0 b1 h0 h1]
  · rw [ReadRegU16LE, hbe]
    simp [combineBE_eq b0 b1 h0 h1, swap16_eq b0 b1 h0 h1]

/-- Witness for C5 at the concrete wire response `[0xAB, 0xCD]`. -/
theorem readRegU16_endianness_witness :
    (0xAB : Nat) < 256 ∧ (0xCD : Nat) < 256 ∧
    (ReadRegU16BE (okTransport [0xAB, 0xCD]) conn0 16 5).1 = Except.ok (0xAB * 256 + 0xCD) ∧
    (ReadRegU16LE (okTransport [0xAB, 0xCD]) conn0 16 5).1 = Except.ok (0xCD * 256 + 0xAB) := by
  refine ⟨by norm_num, by norm_num, ?_⟩
  exact readRegU16_endianness 16 5 0xAB 0xCD (by norm_num) (by norm_num)

/-- C9: `WriteRegS16BE` on a signed 16-bit value produces exactly the
operation `WriteRegU16BE` performs on the value's two's-complement bit
pattern — the same result and the same wire transfer. -/
theorem writeRegS16BE_eq_unsigned (t : Transport) (c : Conn) (addr reg : Nat) (v : Int)
    (hlo : -32768 ≤ v) (hhi : v < 32768) :
    WriteRegS16BE t c addr reg v = WriteRegU16BE t c addr reg (toU16 v) := rfl

/-- Witness for C9 at the concrete value `-2`. -/
theorem writeRegS16BE_eq_unsigned_witness :
    (-32768 : Int) ≤ -2 ∧ (-2 : Int) < 32768 ∧
    WriteRegS16BE (okTransport []) conn0 16 5 (-2) =
      WriteRegU16BE (okTransport []) conn0 16 5 (toU16 (-2)) :=
  ⟨by norm_num, by norm_num,
    writeRegS16BE_eq_unsigned (okTransport []) conn0 16 5 (-2) (by norm_num) (by norm_num)⟩

/-- C2 (code bug): at `value = 1` the LE writers compute
`w = (1*0xFF00)>>8 + 1<<8 = 0x01FF` — the source multiplies by `0xFF00`
instead of masking with it — so the wire bytes after `reg` are
`[0x01, 0xFF]`, not the byte-swapped `[0x01, 0x00]` the specification
prescribes. -/
theorem writeRegU16LE_typo_wire :
    (WriteRegU16LE (okTransport []) conn0 16 5 1).2 =
        [Event.ioctlReq 3 I2C_SLAVE 16, Event.fwrite 3 [5, 1, 255]] ∧
    (WriteRegS16LE (okTransport []) conn0 16 5 1).2 =
        [Event.ioctlReq 3 I2C_SLAVE 16, Event.fwrite 3 [5, 1, 255]] ∧
    [5, 1, 255] ≠ [5, 1, 0] := by decide

/-- C4 (code bug): on the wire response `[0xFF, 0x01]` the unsigned LE read
yields the byte-swapped pattern `0x01FF = 511` (whose signed reinterpretation
is also `511`), but `ReadRegS16LE` returns `255`: its byte swap uses the
ARITHMETIC right shift `w>>8` on the signed word, which sign-extends when the
first wire byte is `>= 0x80`. -/
theorem readRegS16LE_sign_extension_bug :
    (ReadRegS16LE (okTransport [255, 1]) conn0 16 5).1 = Except.ok 255 ∧
    (ReadRegU16LE (okTransport [255, 1]) conn0 16 5).1 = Except.ok 511 ∧
    toS16 511 = 511 ∧ (255 : Int) ≠ 511 :=
  ⟨rfl, rfl, by decide, by decide⟩

/-- C3 counterexample: a transport that supplies only 1 of the 2 requested
bytes without reporting an error makes `Read` return success with the short
count — not an error as the claim states. -/
theorem read_short_ok_counterexample :
    (Read (okTransport [7]) conn0 16 2).1 = Except.ok (1, [7, 0]) ∧ (1 : Nat) < 2 :=
  ⟨rfl, by decide⟩

/-- C3 amended: `Read` simply propagates the underlying transport's result.
If the address-set succeeds and the transport supplies `bs` (with
`bs.length ≤ n`) without an error, `Read` returns success with count
`bs.length` — even when that is fewer than the `n` bytes requested — and the
rest of the buffer left zeroed. -/
theorem read_propagates_transport (t : Transport) (c : Conn) (addr n : Nat) (bs : List Nat)
    (hopen : c.closed = false) (hfd : 0 ≤ c.fd)
    (hio : t.ioctlRes c.fd I2C_SLAVE addr = none)
    (hrd : t.readRes c.fd n = Sum.inl bs) (hlen : bs.length ≤ n) :
    (Read t c addr n).1 =
      Except.ok (bs.length,
        bs.map (fun b => b % 256) ++ List.replicate (n - bs.length) 0) := by
  have hnot : ¬ c.fd < 0 := not_lt.mpr hfd
  simp [Read, readNoSync, setAddress, ioctl, fileRead, Conn.Fd, hopen, hio, hrd, hnot,
    List.take_of_length_le, hlen]

/-- Witness for C3's amended theorem at a concrete short read (1 byte
supplied for a 2-byte request). -/
theorem read_propagates_transport_witness :
    conn0.closed = false ∧ (0 : Int) ≤ conn0.fd ∧
    (okTransport [7]).ioctlRes conn0.fd I2C_SLAVE 16 = none ∧
    (okTransport [7]).readRes conn0.fd 2 = Sum.inl [7] ∧
    ([7] : List Nat).length ≤ 2 ∧
    (Read (okTransport [7]) conn0 16 2).1 =
      Except.ok (([7] : List Nat).length,
        ([7] : List Nat).map (fun b => b % 256) ++
          List.replicate (2 - ([7] : List Nat).length) 0) :=
  ⟨rfl, by decide, rfl, rfl, by norm_num,
    read_propagates_transport (okTransport [7]) conn0 16 2 [7] rfl (by decide) rfl rfl
      (by norm_num)⟩

lemma hi_lo_decompose (v : Nat) (hv : v < 65536) :
    ((v &&& 65280) >>> 8) * 256 + (v &&& 255) = v := by
  rw [and_ff00_shiftRight, shiftRight8_eq_div, and255_eq_mod, and255_eq_mod]
  have h1 : v / 256 < 256 := by omega
  rw [Nat.mod_eq_of_lt h1]
  omega

/-- A fake transport whose set-address ioctl always fails with code `e`. -/
def badIoctlTransport (e : Nat) : Transport where
  ioctlRes := fun _ _ _ => some e
  writeRes := fun _ buf => Sum.inl buf.length
  readRes := fun _ _ => Sum.inl []

/-- C6: if the set-target-address device-control request fails with code `e`,
every operation — raw writes and reads, and the reference-byte phase of every
register operation — aborts immediately: it returns exactly that error and
its event trace is the single failed ioctl, so no data transfer (file write
or file read) is ever attempted. -/
theorem setAddress_failure_aborts (t : Transport) (c : Conn) (e : Nat) (o : Op)
    (hopen : c.closed = false) (hfd : 0 ≤ c.fd)
    (hio : t.ioctlRes c.fd I2C_SLAVE o.addr = some e) :
    (runOp t c o).1 = Except.error (I2CErr.dev e) ∧
    (runOp t c o).2 = [Event.ioctlReq c.fd I2C_SLAVE o.addr] := by
  have hnot : ¬ c.fd < 0 := not_lt.mpr hfd
  cases o <;>
    (simp only [Op.addr] at hio
     simp [runOp, Op.addr, Write, Read, WriteByte, writeByteNoSync, ReadRegU8, WriteRegU8,
       ReadRegU16BE, ReadRegU16LE, ReadRegS16BE, ReadRegS16LE, WriteRegU16BE, WriteRegU16LE,
       WriteRegS16BE, WriteRegS16LE, writeNoSync, readNoSync, setAddress, ioctl,
       Except.map, Conn.Fd, hopen, hio, hnot])

/-- Witness for C6: a transport whose ioctl fails with code 13, operation
`ReadRegU8`. -/
theorem setAddress_failure_aborts_witness :
    conn0.closed = false ∧ (0 : Int) ≤ conn0.fd ∧
    (badIoctlTransport 13).ioctlRes conn0.fd I2C_SLAVE (Op.readRegU8 16 5).addr = some 13 ∧
    (runOp (badIoctlTransport 13) conn0 (Op.readRegU8 16 5)).1 =
      Except.error (I2CErr.dev 13) ∧
    (runOp (badIoctlTransport 13) conn0 (Op.readRegU8 16 5)).2 =
      [Event.ioctlReq conn0.fd I2C_SLAVE (Op.readRegU8 16 5).addr] :=
  ⟨rfl, by decide, rfl,
    setAddress_failure_aborts (badIoctlTransport 13) conn0 13 (Op.readRegU8 16 5) rfl
      (by decide) rfl⟩

/-- C7: after `Close` succeeds on an open connection, every operation fails
deterministically with `EBADF` (the sole syscall attempted is an ioctl on the
invalid sentinel descriptor, which the kernel rejects before consulting any
device), and no event in its trace targets the released descriptor. -/
theorem post_close_fails (c : Conn) (t : Transport) (o : Op)
    (hopen : c.closed = false) (hfd : 0 ≤ c.fd) :
    (Close c).1 = Except.ok () ∧
    (runOp t (Close c).2 o).1 = Except.error I2CErr.ebadf ∧
    (runOp t (Close c).2 o).2 = [Event.ioctlReq invalidFd I2C_SLAVE o.addr] ∧
    ∀ ev ∈ (runOp t (Close c).2 o).2, Event.fd ev ≠ c.fd := by
  have hc : (Close c).2 = { c with closed := true } := by simp [Close, hopen]
  have h1 : (Close c).1 = Except.ok () := by simp [Close, hopen]
  have key : (runOp t (Close c).2 o).1 = Except.error I2CErr.ebadf ∧
      (runOp t (Close c).2 o).2 = [Event.ioctlReq invalidFd I2C_SLAVE o.addr] := by
    rw [hc]
    cases o <;>
      simp [runOp, Op.addr, Write, Read, WriteByte, writeByteNoSync, ReadRegU8, WriteRegU8,
        ReadRegU16BE, ReadRegU16LE, ReadRegS16BE, ReadRegS16LE, WriteRegU16BE, WriteRegU16LE,
        WriteRegS16BE, WriteRegS16LE, writeNoSync, readNoSync, setAddress, ioctl,
        Except.map, Conn.Fd, invalidFd]
  refine ⟨h1, key.1, key.2, ?_⟩
  intro ev hev
  rw [key.2] at hev
  simp only [List.mem_singleton] at hev
  subst hev
  simp only [Event.fd, invalidFd]
  omega

/-- Witness for C7: closing `conn0` then attempting a raw write. -/
theorem post_close_fails_witness :
    conn0.closed = false ∧ (0 : Int) ≤ conn0.fd ∧
    (Close conn0).1 = Except.ok () ∧
    (runOp (okTransport []) (Close conn0).2 (Op.write 16 [1, 2])).1 =
      Except.error I2CErr.ebadf ∧
    (runOp (okTransport []) (Close conn0).2 (Op.write 16 [1, 2])).2 =
      [Event.ioctlReq invalidFd I2C_SLAVE (Op.write 16 [1, 2]).addr] ∧
    ∀ ev ∈ (runOp (okTransport []) (Close conn0).2 (Op.write 16 [1, 2])).2,
      Event.fd ev ≠ conn0.fd :=
  ⟨rfl, by decide,
    (post_close_fails conn0 (okTransport []) (Op.write 16 [1, 2]) rfl (by decide)).1,
    (post_close_fails conn0 (okTransport []) (Op.write 16 [1, 2]) rfl (by decide)).2.1,
    (post_close_fails conn0 (okTransport []) (Op.write 16 [1, 2]) rfl (by decide)).2.2.1,
    (post_close_fails conn0 (okTransport []) (Op.write 16 [1, 2]) rfl (by decide)).2.2.2⟩

/-- C8: writing `v` via `WriteRegU16BE` to a fake device that stores the last
2 data bytes written, then reading via `ReadRegU16BE` against that stored
state, returns exactly `v`. -/
theorem writeRead_u16be_roundtrip (addr reg v : Nat) (hv : v < 65536) :
    (ReadRegU16BE
        (okTransport
          (lastTwo (writtenData (WriteRegU16BE (okTransport []) conn0 addr reg v).2)))
        conn0 addr reg).1 = Except.ok v := by
  have hwr : (WriteRegU16BE (okTransport []) conn0 addr reg v).2 =
      [Event.ioctlReq 3 I2C_SLAVE addr,
       Event.fwrite 3 [reg, (v &&& 65280) >>> 8, v &&& 255]] := by
    simp [WriteRegU16BE, writeNoSync, setAddress, ioctl, fileWrite, okTransport, conn0,
      Conn.Fd]
  rw [hwr]
  have hlt : lastTwo (writtenData [Event.ioctlReq 3 I2C_SLAVE addr,
      Event.fwrite 3 [reg, (v &&& 65280) >>> 8, v &&& 255]]) =
      [(v &&& 65280) >>> 8, v &&& 255] := by
    simp [writtenData, lastTwo]
  rw [hlt]
  have h0 : (v &&& 65280) >>> 8 < 256 := by
    rw [and_ff00_shiftRight, and255_eq_mod]
    omega
  have h1 : v &&& 255 < 256 := by
    rw [and255_eq_mod]
    omega
  rw [readRegU16BE_okT addr reg _ _ h0 h1]
  simp only [combineBE_eq _ _ h0 h1]
  rw [hi_lo_decompose v hv]

/-- Witness for C8 at the concrete value `0xBEEF`. -/
theorem writeRead_u16be_roundtrip_witness :
    (0xBEEF : Nat) < 65536 ∧
    (ReadRegU16BE
        (okTransport
          (lastTwo (writtenData (WriteRegU16BE (okTransport []) conn0 16 5 0xBEEF).2)))
        conn0 16 5).1 = Except.ok 0xBEEF :=
  ⟨by norm_num, writeRead_u16be_roundtrip 16 5 0xBEEF (by norm_num)⟩

/-- C10: each register read (`ReadRegU8`, `ReadRegU16BE`, `ReadRegS16BE`)
issues the set-address ioctl twice per call: once immediately before the
reference-byte write and once more immediately before the data read. -/
theorem regRead_two_address_sets (t : Transport) (c : Conn) (addr reg : Nat)
    (hopen : c.closed = false) (hfd : 0 ≤ c.fd)
    (hio : t.ioctlRes c.fd I2C_SLAVE addr = none)
    (hw : ∃ n, t.writeRes c.fd [reg] = Sum.inl n)
    (hr1 : ∃ bs, t.readRes c.fd 1 = Sum.inl bs)
    (hr2 : ∃ bs, t.readRes c.fd 2 = Sum.inl bs) :
    (ReadRegU8 t c addr reg).2 =
      [Event.ioctlReq c.fd I2C_SLAVE addr, Event.fwrite c.fd [reg],
       Event.ioctlReq c.fd I2C_SLAVE addr, Event.fread c.fd 1] ∧
    (ReadRegU16BE t c addr reg).2 =
      [Event.ioctlReq c.fd I2C_SLAVE addr, Event.fwrite c.fd [reg],
       Event.ioctlReq c.fd I2C_SLAVE addr, Event.fread c.fd 2] ∧
    (ReadRegS16BE t c addr reg).2 =
      [Event.ioctlReq c.fd I2C_SLAVE addr, Event.fwrite c.fd [reg],
       Event.ioctlReq c.fd I2C_SLAVE addr, Event.fread c.fd 2] := by
  obtain ⟨nw, hw⟩ := hw
  obtain ⟨bs1, hr1⟩ := hr1
  obtain ⟨bs2, hr2⟩ := hr2
  have hnot : ¬ c.fd < 0 := not_lt.mpr hfd
  refine ⟨?_, ?_, ?_⟩ <;>
    simp [ReadRegU8, ReadRegU16BE, ReadRegS16BE, writeNoSync, readNoSync, setAddress,
      ioctl, fileWrite, fileRead, Conn.Fd, hopen, hio, hw, hr1, hr2, hnot]

/-- Witness for C10 on a concrete always-successful transport. -/
theorem regRead_two_address_sets_witness :
    conn0.closed = false ∧ (0 : Int) ≤ conn0.fd ∧
    (okTransport [9, 9]).ioctlRes conn0.fd I2C_SLAVE 16 = none ∧
    (ReadRegU8 (okTransport [9, 9]) conn0 16 5).2 =
      [Event.ioctlReq conn0.fd I2C_SLAVE 16, Event.fwrite conn0.fd [5],
       Event.ioctlReq conn0.fd I2C_SLAVE 16, Event.fread conn0.fd 1] ∧
    (ReadRegU16BE (okTransport [9, 9]) conn0 16 5).2 =
      [Event.ioctlReq conn0.fd I2C_SLAVE 16, Event.fwrite conn0.fd [5],
       Event.ioctlReq conn0.fd I2C_SLAVE 16, Event.fread conn0.fd 2] ∧
    (ReadRegS16BE (okTransport [9, 9]) conn0 16 5).2 =
      [Event.ioctlReq conn0.fd I2C_SLAVE 16, Event.fwrite conn0.fd [5],
       Event.ioctlReq conn0.fd I2C_SLAVE 16, Event.fread conn0.fd 2] :=
  ⟨rfl, by decide, rfl,
    regRead_two_address_sets (okTransport [9, 9]) conn0 16 5 rfl (by decide) rfl
      ⟨1, rfl⟩ ⟨[9, 9], rfl⟩ ⟨[9, 9], rfl⟩⟩

/-- C1: for any two of the six register-level operations run by two threads
on one shared connection, every mutex-respecting interleaving of their action
traces (each trace acquires the lock exactly once at the start and holds it
across the reference and data phases) is fully serial: one operation's whole
trace followed by the other's, so no action of one operation falls between
the other's reference-byte write and its data phase. -/
theorem regOps_atomic (t : Transport) (c : Conn) (oA oB : Op)
    (tr : List (Bool × Action)) (hA : isRegOp oA) (hB : isRegOp oB)
    (h : Sched none (opActions t c oA) (opActions t c oB) tr) :
    tr = tagged true (opActions t c oA) ++ tagged false (opActions t c oB) ∨
    tr = tagged false (opActions t c oB) ++ tagged true (opActions t c oA) :=
  sched_serializes h

/-- Witness for C1: the serial schedule of a `ReadRegU8` and a `WriteRegU8`
on one connection is a valid interleaving, and the theorem applies to it. -/
theorem regOps_atomic_witness :
    isRegOp (Op.readRegU8 16 5) ∧ isRegOp (Op.writeRegU8 16 6 7) ∧
    Sched none (opActions (okTransport [0]) conn0 (Op.readRegU8 16 5))
      (opActions (okTransport [0]) conn0 (Op.writeRegU8 16 6 7))
      (tagged true (opActions (okTransport [0]) conn0 (Op.readRegU8 16 5)) ++
        tagged false (opActions (okTransport [0]) conn0 (Op.writeRegU8 16 6 7))) ∧
    (tagged true (opActions (okTransport [0]) conn0 (Op.readRegU8 16 5)) ++
        tagged false (opActions (okTransport [0]) conn0 (Op.writeRegU8 16 6 7)) =
      tagged true (opActions (okTransport [0]) conn0 (Op.readRegU8 16 5)) ++
        tagged false (opActions (okTransport [0]) conn0 (Op.writeRegU8 16 6 7)) ∨
      tagged true (opActions (okTransport [0]) conn0 (Op.readRegU8 16 5)) ++
        tagged false (opActions (okTransport [0]) conn0 (Op.writeRegU8 16 6 7)) =
      tagged false (opActions (okTransport [0]) conn0 (Op.writeRegU8 16 6 7)) ++
        tagged true (opActions (okTransport [0]) conn0 (Op.readRegU8 16 5))) :=
  ⟨trivial, trivial, sched_serial_AB _ _,
    regOps_atomic (okTransport [0]) conn0 (Op.readRegU8 16 5) (Op.writeRegU8 16 6 7) _
      trivial trivial (sched_serial_AB _ _)⟩

end I2C
